import Mathlib

/-!
Verification of the quality-check pipeline in `qualitycheck.py`.

The development shallowly embeds the program: Python strings become
`List Char`, the subprocess exit status becomes an integer parameter,
Python floats on the decimal strings of TEQC reports become exact
rationals, and every Python exception raised by the embedded code
becomes an `Except.error` value carrying the exception kind.  The
dispatcher `parallel_teqc` is embedded as a pure function over the list
of completed tasks in completion order; the records it prints on the
way are returned as a list, and an exception that escapes the loop is
the `Except.error` outcome of the run.
-/

attribute [local semireducible] Rat.inv Rat.mul Rat.add Rat.sub Rat.ofScientific

namespace QualityCheck

/-- A Python `str` is modelled as its list of characters. -/
abbrev Str := List Char

/-- The ASCII whitespace characters stripped by Python `str.strip()`. -/
def pyWhitespace : Str := [' ', '\t', '\n', '\r', '\u000B', '\u000C']

/-- Whether a character is Python whitespace. -/
def pyIsSpace (c : Char) : Bool := pyWhitespace.contains c

/-- Python `s.strip()`: remove leading and trailing whitespace. -/
def pyStrip (s : Str) : Str :=
  ((s.dropWhile pyIsSpace).reverse.dropWhile pyIsSpace).reverse

/-- Python slicing `s[a:b]` with nonnegative bounds: clamped, never raising. -/
def pySlice (s : Str) (a b : Nat) : Str := (s.take b).drop a

/-- Python slicing `s[a:]` with a nonnegative bound. -/
def pyDrop (s : Str) (a : Nat) : Str := s.drop a

/-- Python `s.split(sep)[0]` for a one-character separator: the prefix of
the string before its first separator, or the whole string. -/
def pySplitFirst (sep : Char) (s : Str) : Str := s.takeWhile (fun c => c != sep)

/-- Python `s.split(chr)` for a one-character separator.  The result is
never empty: splitting the empty string gives one empty segment. -/
def pySplitOn (sep : Char) : Str → List Str
  | [] => [[]]
  | c :: rest =>
    if c = sep then [] :: pySplitOn sep rest
    else
      match pySplitOn sep rest with
      | [] => [[c]]
      | h :: t => (c :: h) :: t

/-- Python substring test `flag in line` (contiguous substring). -/
def containsSub (flag : Str) : Str → Bool
  | [] => flag.isEmpty
  | c :: rest => flag.isPrefixOf (c :: rest) || containsSub flag rest

/-- Python `os.path.basename` for POSIX paths: the part after the last
slash. -/
def basename (p : Str) : Str := (p.reverse.takeWhile (fun c => c != '/')).reverse

/-- Decimal digit test, Python `\d`. -/
def isDigit (c : Char) : Bool := c.isDigit

/-- Value of a list of decimal digit characters. -/
def digitsToNat (ds : Str) : Nat := ds.foldl (fun acc c => acc * 10 + (c.toNat - 48)) 0

/-- Optional sign at the front of a numeric string: returns whether the
value is negated and the rest of the string. -/
def parseSign : Str → Bool × Str
  | '-' :: t => (true, t)
  | '+' :: t => (false, t)
  | s => (false, s)

/-- Exponent suffix of a Python float literal, applied to an already
parsed mantissa. -/
def pyExpPart (m : ℚ) (u : Str) : Option ℚ :=
  let su := parseSign u
  let eds := su.2.takeWhile isDigit
  if eds.isEmpty || !(su.2.dropWhile isDigit).isEmpty then none
  else some (if su.1 then m / 10 ^ digitsToNat eds else m * 10 ^ digitsToNat eds)

/-- Python `float(s)` on decimal literals, modelled exactly over `ℚ`:
optional surrounding whitespace, optional sign, digits with an optional
point, optional exponent; at least one digit is required.  The special
values `inf` and `nan` and digit-group underscores, which no TEQC
report field ever carries, are not modelled and yield `none`. -/
def pyFloat (s : Str) : Option ℚ :=
  let t := pyStrip s
  let st := parseSign t
  let intPart := st.2.takeWhile isDigit
  let r1 := st.2.dropWhile isDigit
  let fr : Str × Str :=
    match r1 with
    | '.' :: u => (u.takeWhile isDigit, u.dropWhile isDigit)
    | _ => ([], r1)
  if intPart.isEmpty && fr.1.isEmpty then none
  else
    let mant : ℚ := (digitsToNat (intPart ++ fr.1) : ℚ) / (10 : ℚ) ^ fr.1.length
    let signed := if st.1 then -mant else mant
    match fr.2 with
    | [] => some signed
    | 'e' :: u => pyExpPart signed u
    | 'E' :: u => pyExpPart signed u
    | _ => none

/-- Calendar date produced by `datetime.strptime`. -/
structure PyDate where
  year : Nat
  month : Nat
  day : Nat
deriving DecidableEq, Repr

/-- The month abbreviations recognised by the `%b` directive. -/
def MONTHS : List (Str × Nat) :=
  [("Jan".toList, 1), ("Feb".toList, 2), ("Mar".toList, 3), ("Apr".toList, 4),
   ("May".toList, 5), ("Jun".toList, 6), ("Jul".toList, 7), ("Aug".toList, 8),
   ("Sep".toList, 9), ("Oct".toList, 10), ("Nov".toList, 11), ("Dec".toList, 12)]

/-- Match a month abbreviation at the front of the string, returning the
month number and the rest. -/
def parseMonth (s : Str) : Option (Nat × Str) :=
  MONTHS.findSome? fun nm =>
    if nm.1.isPrefixOf s then some (nm.2, s.drop nm.1.length) else none

/-- Greedy run of at most `maxN` leading digits. -/
def takeDigits (maxN : Nat) (s : Str) : Str := (s.take maxN).takeWhile isDigit

/-- Whether a year is a leap year, as the `datetime` module computes it. -/
def leapYear (y : Nat) : Bool := y % 4 == 0 && (y % 100 != 0 || y % 400 == 0)

/-- Days in a month, as validated by `datetime`. -/
def daysInMonth (y m : Nat) : Nat :=
  if m = 2 then (if leapYear y then 29 else 28)
  else if m = 4 || m = 6 || m = 9 || m = 11 then 30 else 31

/-- Python `datetime.strptime(s, "%Y %b %d")`: one to four year digits,
whitespace, a month abbreviation, whitespace, one or two day digits,
nothing left over, and the date must be a valid `datetime` date.
Returns `none` where `strptime` raises `ValueError`.  The abbreviations
are matched in their standard capitalisation, the only form TEQC
emits. -/
def strptimeYbD (s : Str) : Option PyDate :=
  let yds := takeDigits 4 s
  if yds.isEmpty then none else
  let s1 := s.drop yds.length
  let ws1 := s1.takeWhile pyIsSpace
  if ws1.isEmpty then none else
  let s2 := s1.drop ws1.length
  match parseMonth s2 with
  | none => none
  | some ms =>
    let ws2 := ms.2.takeWhile pyIsSpace
    if ws2.isEmpty then none else
    let s4 := ms.2.drop ws2.length
    let dds := takeDigits 2 s4
    if dds.isEmpty then none else
    if !(s4.drop dds.length).isEmpty then none else
    let y := digitsToNat yds
    let d := digitsToNat dds
    if y < 1 || 9999 < y || d < 1 || daysInMonth y ms.1 < d then none
    else some ⟨y, ms.1, d⟩

/-- A natural number printed in decimal, zero-padded to width `w`. -/
def padNum (w n : Nat) : Str :=
  let ds := Nat.toDigits 10 n
  List.replicate (w - ds.length) '0' ++ ds

/-- Python `date.strftime("%Y-%m-%d")`. -/
def strftimeYmd (d : PyDate) : Str :=
  padNum 4 d.year ++ ('-' :: padNum 2 d.month) ++ ('-' :: padNum 2 d.day)

/-- The kinds of Python exception the embedded code can raise. -/
inductive PyErr where
  | keyError
  | valueError
  | indexError
  | zeroDivisionError
deriving DecidableEq, Repr

instance {ε α : Type} [DecidableEq ε] [DecidableEq α] : DecidableEq (Except ε α) := fun x y =>
  match x, y with
  | .ok a, .ok b =>
    if h : a = b then isTrue (by rw [h])
    else isFalse (by intro hh; cases hh; exact h rfl)
  | .ok _, .error _ => isFalse (by intro h; cases h)
  | .error _, .ok _ => isFalse (by intro h; cases h)
  | .error e, .error f =>
    if h : e = f then isTrue (by rw [h])
    else isFalse (by intro hh; cases hh; exact h rfl)

/-- Whether an `Except` outcome is a success. -/
def exceptIsOk : Except PyErr α → Bool
  | .ok _ => true
  | .error _ => false

/-- Whether an `Except` outcome is an error. -/
def exceptIsErr : Except PyErr α → Bool
  | .ok _ => false
  | .error _ => true

/-- Sequencing of embedded Python statements that may raise. -/
def bindE (e : Except PyErr α) (f : α → Except PyErr β) : Except PyErr β :=
  match e with
  | .error err => .error err
  | .ok a => f a

/-- The concurrency limit, `MAX_THREADING = max(6, os.cpu_count())`,
as a function of the number of available processing units. -/
def MAX_THREADING (cpu : Nat) : Nat := max 6 cpu

/-- One entry of `QUALITYINFO`: a field name, the locator substring
identifying its report line, and the `slice(a, b)` extracting it. -/
structure QualityField where
  name : String
  flag : Str
  pos : Nat × Nat
deriving DecidableEq, Repr

/-- The five quality fields, in declaration order, with the exact
locator strings and column slices of the source. -/
def QUALITYINFO : List QualityField :=
  [⟨"start", "Time of start of window :".toList, (25, 51)⟩,
   ⟨"end", "Time of  end  of window :".toList, (37, 51)⟩,
   ⟨"length", "Time line window length :".toList, (26, 42)⟩,
   ⟨"SN1", "Mean S1                 :".toList, (26, 31)⟩,
   ⟨"SN2", "Mean S2                 :".toList, (26, 31)⟩]

/-- The embedding of `quality_check`, with the subprocess modelled by
its observable pair: the exit status returned by
`subprocess.getstatusoutput` (an integer, negative when the process was
killed by a signal) and the captured merged output text.  The source
returns `None` when `status > 0` and otherwise the output split on
newlines. -/
def quality_check (status : ℤ) (output : Str) : Option (List Str) :=
  if status > 0 then none
  else some (pySplitOn '\n' output)

/-- The inner loop of the field scan in `parse_report`: Python
`for number, line in enumerate(report[last_no:], last_no)` with a
`break` on the first line containing the flag.  The argument is the
already dropped list together with the enumeration start. -/
def scanLine (flag : Str) : List Str → Nat → Option (Nat × Str)
  | [], _ => none
  | line :: rest, n =>
    if containsSub flag line then some (n, line)
    else scanLine flag rest (n + 1)

/-- The field-scanning loop of `parse_report`: for each field in order,
scan `report[last_no:]` for the first line containing the locator,
record the stripped slice of that line under the field name, and set
the cursor `last_no` to the index of the matched line.  A field whose
locator never occurs records nothing and leaves the cursor unchanged.
Returns the marks dictionary (as an association list of distinct
names) together with the final cursor. -/
def scanFields : List QualityField → List Str → Nat → List (String × Str) × Nat
  | [], _, last_no => ([], last_no)
  | item :: rest, report, last_no =>
    match scanLine item.flag (report.drop last_no) last_no with
    | none => scanFields rest report last_no
    | some nl =>
      let res := scanFields rest report nl.1
      ((item.name, pyStrip (pySlice nl.2 item.pos.1 item.pos.2)) :: res.1, res.2)

/-- Python `marks[name]`: a missing key raises `KeyError`. -/
def getMark (marks : List (String × Str)) (name : String) : Except PyErr Str :=
  match marks.lookup name with
  | some v => .ok v
  | none => .error .keyError

/-- Python `float(text)` as a statement: an unparseable text raises
`ValueError`. -/
def toValue (o : Option ℚ) : Except PyErr ℚ :=
  match o with
  | some q => .ok q
  | none => .error .valueError

/-- Python `datetime.strptime` as a statement: a mismatch raises
`ValueError`. -/
def toDate (o : Option PyDate) : Except PyErr PyDate :=
  match o with
  | some d => .ok d
  | none => .error .valueError

/-- Python `report[-1]`: the last element, raising `IndexError` on an
empty list. -/
def lastLine (report : List Str) : Except PyErr Str :=
  match report.getLast? with
  | some l => .ok l
  | none => .error .indexError

/-- The 9-tuple built by `parse_report`:
date, start, end, length, SN1, SN2, MP1, MP2, CSR. -/
structure QRecord where
  date : Str
  start : Str
  end_ : Str
  length : Str
  SN1 : ℚ
  SN2 : ℚ
  MP1 : ℚ
  MP2 : ℚ
  CSR : ℚ
deriving DecidableEq, Repr

/-- The embedding of `parse_report`.  The statements run in the order
of the source, so the first raising statement determines the error:
the dictionary lookups and float conversions of SN1 and SN2, the date
parse of the first eleven characters of the start field, the lookups
of end and length, the last report line, the three fixed-column float
reads of the summary line, and finally the division `1000 / olps`,
which raises `ZeroDivisionError` when the slip count is zero. -/
def parse_report (report : List Str) : Except PyErr QRecord :=
  let marks := (scanFields QUALITYINFO report 0).1
  bindE (getMark marks "SN1") fun sn1txt =>
  bindE (toValue (pyFloat sn1txt)) fun sn1 =>
  bindE (getMark marks "SN2") fun sn2txt =>
  bindE (toValue (pyFloat sn2txt)) fun sn2 =>
  bindE (getMark marks "start") fun starttxt =>
  bindE (toDate (strptimeYbD (pySlice starttxt 0 11))) fun date =>
  let start := pyStrip (pyDrop starttxt 11)
  bindE (getMark marks "end") fun endtxt =>
  bindE (getMark marks "length") fun lentxt =>
  let length := pySplitFirst ',' lentxt
  bindE (lastLine report) fun last_line =>
  bindE (toValue (pyFloat (pySlice last_line 63 67))) fun mp1 =>
  bindE (toValue (pyFloat (pySlice last_line 69 73))) fun mp2 =>
  bindE (toValue (pyFloat (pyDrop last_line 75))) fun olps =>
  if olps = 0 then .error .zeroDivisionError
  else .ok ⟨strftimeYmd date, start, endtxt, length, sn1, sn2, mp1, mp2, 1000 / olps⟩

/-- Python truthiness of a `report or None` dispatch outcome: `None`
and the empty list are falsy, a nonempty list is truthy. -/
def optTruthy : Option (List Str) → Bool
  | none => false
  | some l => !l.isEmpty

/-- The embedding of the completion-draining loop of `parallel_teqc`.
The input is the list of completed tasks in completion order, each a
source path paired with the `quality_check` outcome of its subprocess.
The first component of the result is the list of records printed by
`print_marks` before the loop ended; the second is `.ok failed_files`
when the loop ran to completion and `.error e` when an exception
raised by `parse_report` escaped the loop (in which case no failed
list is returned to the caller and the batch aborts). -/
def parallel_teqc :
    List (Str × Option (List Str)) → List (Str × QRecord) × Except PyErr (List Str)
  | [] => ([], .ok [])
  | (src, res) :: rest =>
    match res with
    | some r =>
      if r.isEmpty then
        let out := parallel_teqc rest
        (out.1, (out.2).map fun fails => basename src :: fails)
      else
        match parse_report r with
        | .error e => ([], .error e)
        | .ok rec =>
          let out := parallel_teqc rest
          ((src, rec) :: out.1, out.2)
    | none =>
      let out := parallel_teqc rest
      (out.1, (out.2).map fun fails => basename src :: fails)

/-- The example report of the source docstring: the five locator
lines, the header line, and the fixed-width summary line. -/
def exReport : List Str :=
  ["Time of start of window : 2017 Aug 10  00:00:00.000".toList,
   "Time of  end  of window : 2017 Aug 10  23:59:30.000".toList,
   "Time line window length : 23.99 hour(s), ticked every ...".toList,
   "Mean S1                 : 46.95 (sd=5.80 n=49483)".toList,
   "Mean S2                 : 42.21 (sd=8.18 n=48411)".toList,
   "      first epoch    last epoch    hrs   dt  #expt  #have   %   mp1   mp2 o/slps".toList,
   "SUM 17  8 10 00:00 17  8 10 23:59 24.00  30     -   47669  -   0.43  0.42   3972".toList]

/-- The number of falsy task outcomes (a `None` from a failed
subprocess, or an empty report) in a completed-task list: exactly the
tasks the dispatcher loop appends to the failed-file list. -/
def failed_count (l : List (Str × Option (List Str))) : Nat :=
  l.countP fun p => !optTruthy p.2

/-- First line of the report at index at least `c` containing the
flag, scanning the whole report by index: the helper behind the
specification scanners.  Arguments: the list still to scan and the
index of its first line. -/
def firstMatchAux (flag : Str) (c : Nat) : List Str → Nat → Option (Nat × Str)
  | [], _ => none
  | line :: rest, j =>
    if c ≤ j ∧ containsSub flag line = true then some (j, line)
    else firstMatchAux flag c rest (j + 1)

/-- The first line of the report at index at least `c` whose text
contains the flag, together with its index. -/
def firstMatchFrom (flag : Str) (report : List Str) (c : Nat) : Option (Nat × Str) :=
  firstMatchAux flag c report 0

/-- Specification scanner following the spec with the amended resume
rule: each field takes the first line at index at least the previous
matched index (the matched line itself included) that contains its
locator. -/
def scanSpecIncl : List QualityField → List Str → Nat → List (String × Str) × Nat
  | [], _, c => ([], c)
  | item :: rest, report, c =>
    match firstMatchFrom item.flag report c with
    | none => scanSpecIncl rest report c
    | some nl =>
      let res := scanSpecIncl rest report nl.1
      ((item.name, pyStrip (pySlice nl.2 item.pos.1 item.pos.2)) :: res.1, res.2)

/-- Specification scanner following the claim text word for word: after
a field matches at line index `i`, the next search resumes from the
line after line `i`, so from index `i + 1`. -/
def scanSpecExcl : List QualityField → List Str → Nat → List (String × Str) × Nat
  | [], _, c => ([], c)
  | item :: rest, report, c =>
    match firstMatchFrom item.flag report c with
    | none => scanSpecExcl rest report c
    | some nl =>
      let res := scanSpecExcl rest report (nl.1 + 1)
      ((item.name, pyStrip (pySlice nl.2 item.pos.1 item.pos.2)) :: res.1, res.2)

/-- Every truthy outcome of a completed-task list parses successfully:
the condition under which no exception interrupts the dispatcher
loop. -/
def allParsable (l : List (Str × Option (List Str))) : Prop :=
  ∀ src r, (src, some r) ∈ l → r ≠ [] → exceptIsOk (parse_report r) = true

/-- State of the bounded worker pool: tasks not yet started, tasks
currently running a subprocess, tasks finished. -/
structure PoolState where
  pending : Nat
  running : Nat
  done : Nat
deriving DecidableEq, Repr

/-- One scheduling step of a `ThreadPoolExecutor` with worker limit
`limit`: a pending task may start only while fewer than `limit` tasks
run, and a running task may finish. -/
inductive PoolStep (limit : Nat) : PoolState → PoolState → Prop
  | start (p r d : Nat) : r < limit → 0 < p →
      PoolStep limit ⟨p, r, d⟩ ⟨p - 1, r + 1, d⟩
  | finish (p r d : Nat) : 0 < r →
      PoolStep limit ⟨p, r, d⟩ ⟨p, r - 1, d + 1⟩

/-- The pool states reachable from the submission of `n` tasks. -/
inductive PoolReach (limit n : Nat) : PoolState → Prop
  | init : PoolReach limit n ⟨n, 0, 0⟩
  | step {s t : PoolState} : PoolReach limit n s → PoolStep limit s t → PoolReach limit n t

/-- A report in which the locator lines of SN1 and SN2 fall on one and
the same line: it separates resuming the scan at the matched line from
resuming after it. -/
def exC6Report : List Str :=
  ["Time of start of window : 2017 Aug 10  00:00:00.000".toList,
   "Time of  end  of window : 2017 Aug 10  23:59:30.000".toList,
   "Time line window length : 23.99 hour(s), ticked every ...".toList,
   "Mean S1                 : 46.95 Mean S2                 : 42.21".toList,
   "SUM 17  8 10 00:00 17  8 10 23:59 24.00  30     -   47669  -   0.43  0.42   3972".toList]

/-- The example report with the slip-count field of the summary line
replaced by zero, keeping the line width. -/
def zeroSlipReport : List Str :=
  ["Time of start of window : 2017 Aug 10  00:00:00.000".toList,
   "Time of  end  of window : 2017 Aug 10  23:59:30.000".toList,
   "Time line window length : 23.99 hour(s), ticked every ...".toList,
   "Mean S1                 : 46.95 (sd=5.80 n=49483)".toList,
   "Mean S2                 : 42.21 (sd=8.18 n=48411)".toList,
   "      first epoch    last epoch    hrs   dt  #expt  #have   %   mp1   mp2 o/slps".toList,
   "SUM 17  8 10 00:00 17  8 10 23:59 24.00  30     -   47669  -   0.43  0.42   0000".toList]

/-! ### Helper lemmas -/

theorem exceptIsOk_iff {α : Type} {e : Except PyErr α} :
    exceptIsOk e = true ↔ ∃ b, e = .ok b := by
  cases e <;> simp [exceptIsOk]

theorem exceptIsErr_iff {α : Type} {e : Except PyErr α} :
    exceptIsErr e = true ↔ ∃ x, e = .error x := by
  cases e <;> simp [exceptIsErr]

theorem exceptIsErr_eq_not_isOk {α : Type} {e : Except PyErr α} :
    exceptIsErr e = !exceptIsOk e := by
  cases e <;> simp [exceptIsErr, exceptIsOk]

theorem bindE_eq_ok {α β : Type} {e : Except PyErr α} {f : α → Except PyErr β} {b : β} :
    bindE e f = .ok b ↔ ∃ a, e = .ok a ∧ f a = .ok b := by
  cases e <;> simp [bindE]

theorem bindE_eq_error {α β : Type} {e : Except PyErr α} {f : α → Except PyErr β} {x : PyErr} :
    bindE e f = .error x ↔ e = .error x ∨ ∃ a, e = .ok a ∧ f a = .error x := by
  cases e <;> simp [bindE]

theorem getMark_eq_ok {marks : List (String × Str)} {name : String} {v : Str} :
    getMark marks name = .ok v ↔ marks.lookup name = some v := by
  unfold getMark; cases marks.lookup name <;> simp

theorem getMark_eq_error {marks : List (String × Str)} {name : String} {x : PyErr} :
    getMark marks name = .error x ↔ marks.lookup name = none ∧ x = .keyError := by
  unfold getMark; cases marks.lookup name <;> simp [eq_comm]

theorem toValue_eq_ok {o : Option ℚ} {q : ℚ} : toValue o = .ok q ↔ o = some q := by
  unfold toValue; cases o <;> simp

theorem toValue_eq_error {o : Option ℚ} {x : PyErr} :
    toValue o = .error x ↔ o = none ∧ x = .valueError := by
  unfold toValue; cases o <;> simp [eq_comm]

theorem toDate_eq_ok {o : Option PyDate} {d : PyDate} : toDate o = .ok d ↔ o = some d := by
  unfold toDate; cases o <;> simp

theorem toDate_eq_error {o : Option PyDate} {x : PyErr} :
    toDate o = .error x ↔ o = none ∧ x = .valueError := by
  unfold toDate; cases o <;> simp [eq_comm]

theorem lastLine_eq_ok {report : List Str} {l : Str} :
    lastLine report = .ok l ↔ report.getLast? = some l := by
  unfold lastLine; cases report.getLast? <;> simp

theorem lastLine_eq_error {report : List Str} {x : PyErr} :
    lastLine report = .error x ↔ report.getLast? = none ∧ x = .indexError := by
  unfold lastLine; cases report.getLast? <;> simp [eq_comm]

theorem pyFloat_nil : pyFloat [] = none := by decide

theorem pySplitOn_ne_nil (sep : Char) (s : Str) : pySplitOn sep s ≠ [] := by
  induction s with
  | nil => simp [pySplitOn]
  | cons c rest ih =>
    simp only [pySplitOn]
    split
    · simp
    · cases h : pySplitOn sep rest <;> simp

theorem ite_error_eq_ok {β : Type} {c : Prop} [Decidable c] {x : PyErr} {v b : β} :
    (if c then (Except.error x : Except PyErr β) else .ok v) = .ok b ↔ ¬c ∧ v = b := by
  split <;> simp_all

theorem ite_error_eq_error {β : Type} {c : Prop} [Decidable c] {x y : PyErr} {v : β} :
    (if c then (Except.error x : Except PyErr β) else .ok v) = .error y ↔ c ∧ x = y := by
  split <;> simp_all [eq_comm]

/-- Inversion of a successful `parse_report`: every dictionary access,
numeric conversion and the last-line access must have succeeded, the
slip count is nonzero, and the record is assembled from the parts. -/
theorem parse_report_ok_inv {report : List Str} {rec : QRecord}
    (h : parse_report report = .ok rec) :
    ∃ sn1txt sn2txt starttxt endtxt lentxt last_line sn1 sn2 date mp1 mp2 olps,
      ((scanFields QUALITYINFO report 0).1).lookup "SN1" = some sn1txt ∧
      pyFloat sn1txt = some sn1 ∧
      ((scanFields QUALITYINFO report 0).1).lookup "SN2" = some sn2txt ∧
      pyFloat sn2txt = some sn2 ∧
      ((scanFields QUALITYINFO report 0).1).lookup "start" = some starttxt ∧
      strptimeYbD (pySlice starttxt 0 11) = some date ∧
      ((scanFields QUALITYINFO report 0).1).lookup "end" = some endtxt ∧
      ((scanFields QUALITYINFO report 0).1).lookup "length" = some lentxt ∧
      report.getLast? = some last_line ∧
      pyFloat (pySlice last_line 63 67) = some mp1 ∧
      pyFloat (pySlice last_line 69 73) = some mp2 ∧
      pyFloat (pyDrop last_line 75) = some olps ∧
      ¬olps = 0 ∧
      rec = ⟨strftimeYmd date, pyStrip (pyDrop starttxt 11), endtxt,
             pySplitFirst ',' lentxt, sn1, sn2, mp1, mp2, 1000 / olps⟩ := by
  unfold parse_report at h
  simp only [bindE_eq_ok, getMark_eq_ok, toValue_eq_ok, toDate_eq_ok, lastLine_eq_ok,
    ite_error_eq_ok] at h
  obtain ⟨sn1txt, h1, sn1, h2, sn2txt, h3, sn2, h4, starttxt, h5, date, h6,
    endtxt, h7, lentxt, h8, last_line, h9, mp1, h10, mp2, h11, olps, h12, h13, h14⟩ := h
  exact ⟨sn1txt, sn2txt, starttxt, endtxt, lentxt, last_line, sn1, sn2, date, mp1, mp2, olps,
    h1, h2, h3, h4, h5, h6, h7, h8, h9, h10, h11, h12, h13, h14.symm⟩

/-- A match of the inner scanning loop yields a line of the scanned
list that contains the flag, at an index at least the enumeration
start. -/
theorem scanLine_some {flag : Str} {l : List Str} :
    ∀ {n j : Nat} {line : Str}, scanLine flag l n = some (j, line) →
      line ∈ l ∧ containsSub flag line = true ∧ n ≤ j := by
  induction l with
  | nil => intro n j line h; simp [scanLine] at h
  | cons hd tl ih =>
    intro n j line h
    unfold scanLine at h
    by_cases hc : containsSub flag hd = true
    · rw [if_pos hc] at h
      obtain ⟨hj, hl⟩ := by simpa using h
      subst hj; subst hl
      exact ⟨List.mem_cons_self _ _, hc, le_refl n⟩
    · rw [if_neg hc] at h
      obtain ⟨hm, hcs, hn⟩ := ih h
      exact ⟨List.mem_cons_of_mem _ hm, hcs, le_trans (Nat.le_succ n) hn⟩

/-- A name found in the marks dictionary was put there by a field of
the scanned list whose locator occurs somewhere in the report. -/
theorem lookup_scanFields_some {fields : List QualityField} {report : List Str} :
    ∀ {c : Nat} {name : String} {v : Str},
      ((scanFields fields report c).1).lookup name = some v →
      ∃ item, item ∈ fields ∧ item.name = name ∧
        ∃ line, line ∈ report ∧ containsSub item.flag line = true := by
  induction fields with
  | nil => intro c name v h; simp [scanFields] at h
  | cons item rest ih =>
    intro c name v h
    unfold scanFields at h
    cases hs : scanLine item.flag (report.drop c) c with
    | none =>
      rw [hs] at h
      obtain ⟨it, hit, hn, w⟩ := ih h
      exact ⟨it, List.mem_cons_of_mem _ hit, hn, w⟩
    | some nl =>
      rw [hs] at h
      by_cases he : name = item.name
      · obtain ⟨hm, hcs, _⟩ := scanLine_some hs
        exact ⟨item, List.mem_cons_self _ _, he.symm,
          nl.2, List.drop_subset c report hm, hcs⟩
      · have hbe : (name == item.name) = false := by
          simp only [beq_eq_false_iff_ne, ne_eq]; exact he
        simp only [List.lookup, hbe] at h
        obtain ⟨it, hit, hn, w⟩ := ih h
        exact ⟨it, List.mem_cons_of_mem _ hit, hn, w⟩

/-- On a nonempty report, `parse_report` can raise a key, value or
zero-division error, but never an index error: the only indexed access
without Python clamping is the `report[-1]` read of the summary line. -/
theorem parse_report_ne_indexError {report : List Str} (h : report ≠ []) :
    parse_report report ≠ .error .indexError := by
  intro hc
  unfold parse_report at hc
  simp only [bindE_eq_error, bindE_eq_ok, getMark_eq_error, getMark_eq_ok,
    toValue_eq_error, toValue_eq_ok, toDate_eq_error, toDate_eq_ok,
    lastLine_eq_error, lastLine_eq_ok, ite_error_eq_error, and_false, false_and,
    and_true, true_and, exists_false, or_false, false_or, reduceCtorEq] at hc
  obtain ⟨_, _, _, _, _, _, _, _, _, _, _, _, _, _, _, _, hlast⟩ := hc
  exact h (List.getLast?_eq_none_iff.mp hlast)

/-- The inner scanning loop searches indices at least the enumeration
start only, when it is run on the report with the first `c` lines
dropped and enumeration starting at `c`: formally, running
`firstMatchAux` from an index already at least the cursor drops the
cursor guard. -/
theorem firstMatchAux_of_le {flag : Str} {c : Nat} {l : List Str} :
    ∀ {j : Nat}, c ≤ j → firstMatchAux flag c l j = scanLine flag l j := by
  induction l with
  | nil => intro j _; rfl
  | cons line rest ih =>
    intro j hj
    by_cases hc : containsSub flag line = true
    · simp [firstMatchAux, scanLine, hj, hc]
    · simp only [firstMatchAux, scanLine, hc, if_neg, and_false, if_false]
      rw [if_neg (by simp [hc]), if_neg (by simp [hc])]
      exact ih (le_trans hj (Nat.le_succ j))

/-- Scanning the whole report for the first line at index at least `c`
containing the flag is the same as enumerating `report[c:]` from `c`,
as the inner loop of the source does. -/
theorem firstMatchAux_drop {flag : Str} {c : Nat} {l : List Str} :
    ∀ {j : Nat}, j ≤ c → firstMatchAux flag c l j = scanLine flag (l.drop (c - j)) c := by
  induction l with
  | nil => intro j _; simp [firstMatchAux, scanLine]
  | cons line rest ih =>
    intro j hj
    by_cases hjc : j = c
    · subst hjc
      simp only [Nat.sub_self, List.drop_zero]
      exact firstMatchAux_of_le (le_refl j)
    · have hlt : j < c := lt_of_le_of_ne hj hjc
      have hng : ¬(c ≤ j ∧ containsSub flag line = true) := fun hcon => absurd hcon.1 (by omega)
      have h1 : firstMatchAux flag c (line :: rest) j = firstMatchAux flag c rest (j + 1) := by
        simp only [firstMatchAux, if_neg hng]
      rw [h1, @ih (j + 1) (by omega)]
      have h2 : c - j = (c - (j + 1)) + 1 := by omega
      rw [h2, List.drop_succ_cons]

/-- The cursor-based inner loop of the source equals the first match
at index at least the cursor over the whole report. -/
theorem scanLine_eq_firstMatchFrom (flag : Str) (report : List Str) (c : Nat) :
    scanLine flag (report.drop c) c = firstMatchFrom flag report c := by
  unfold firstMatchFrom
  rw [firstMatchAux_drop (Nat.zero_le c), Nat.sub_zero]

/-- The returned index of the inner loop is at least the cursor. -/
theorem scanLine_drop_ge {flag : Str} {report : List Str} {c j : Nat} {line : Str}
    (h : scanLine flag (report.drop c) c = some (j, line)) : c ≤ j :=
  (scanLine_some h).2.2

/-- The cursor of the field scan never moves backwards. -/
theorem scanFields_cursor_ge (fields : List QualityField) (report : List Str) :
    ∀ c : Nat, c ≤ (scanFields fields report c).2 := by
  induction fields with
  | nil => intro c; simp [scanFields]
  | cons item rest ih =>
    intro c
    unfold scanFields
    cases hs : scanLine item.flag (report.drop c) c with
    | none => exact ih c
    | some nl =>
      have h1 : c ≤ nl.1 := by
        obtain ⟨j, line⟩ := nl
        exact scanLine_drop_ge hs
      exact le_trans h1 (ih nl.1)

/-- The code scanner equals the specification scanner with the
inclusive resume rule. -/
theorem scanFields_eq_scanSpecIncl (fields : List QualityField) (report : List Str) :
    ∀ c : Nat, scanFields fields report c = scanSpecIncl fields report c := by
  induction fields with
  | nil => intro c; rfl
  | cons item rest ih =>
    intro c
    unfold scanFields scanSpecIncl
    rw [scanLine_eq_firstMatchFrom]
    cases firstMatchFrom item.flag report c with
    | none => exact ih c
    | some nl => simp only [ih nl.1]

theorem exceptIsOk_map {α β : Type} {f : α → β} {e : Except PyErr α} :
    exceptIsOk (e.map f) = exceptIsOk e := by
  cases e <;> rfl

theorem except_map_eq_ok {α β : Type} {f : α → β} {e : Except PyErr α} {b : β} :
    e.map f = .ok b ↔ ∃ a, e = .ok a ∧ f a = b := by
  cases e <;> simp [Except.map]

theorem parallel_teqc_nil : parallel_teqc [] = ([], .ok []) := rfl

theorem parallel_teqc_cons_none (src : Str) (rest : List (Str × Option (List Str))) :
    parallel_teqc ((src, none) :: rest) =
      ((parallel_teqc rest).1,
       ((parallel_teqc rest).2).map fun fails => basename src :: fails) := rfl

theorem parallel_teqc_cons_empty (src : Str) (rest : List (Str × Option (List Str))) :
    parallel_teqc ((src, some []) :: rest) =
      ((parallel_teqc rest).1,
       ((parallel_teqc rest).2).map fun fails => basename src :: fails) := rfl

theorem parallel_teqc_cons_some_err {src r rest e} (hne : r ≠ [])
    (hp : parse_report r = .error e) :
    parallel_teqc ((src, some r) :: rest) = ([], .error e) := by
  simp [parallel_teqc, hp, hne]

theorem parallel_teqc_cons_some_ok {src r rest rec} (hne : r ≠ [])
    (hp : parse_report r = .ok rec) :
    parallel_teqc ((src, some r) :: rest) =
      ((src, rec) :: (parallel_teqc rest).1, (parallel_teqc rest).2) := by
  simp [parallel_teqc, hp, hne]

theorem allParsable_nil : allParsable [] :=
  fun _ _ h _ => absurd h (List.not_mem_nil _)

theorem allParsable_cons_none {src : Str} {rest : List (Str × Option (List Str))} :
    allParsable ((src, none) :: rest) ↔ allParsable rest := by
  constructor
  · exact fun h src' r' hm hne => h src' r' (List.mem_cons_of_mem _ hm) hne
  · intro h src' r' hm hne
    rcases List.mem_cons.mp hm with heq | hm'
    · exact absurd (congrArg Prod.snd heq) (by simp)
    · exact h src' r' hm' hne

theorem allParsable_cons_empty {src : Str} {rest : List (Str × Option (List Str))} :
    allParsable ((src, some []) :: rest) ↔ allParsable rest := by
  constructor
  · exact fun h src' r' hm hne => h src' r' (List.mem_cons_of_mem _ hm) hne
  · intro h src' r' hm hne
    rcases List.mem_cons.mp hm with heq | hm'
    · have : r' = ([] : List Str) := by
        have := congrArg Prod.snd heq
        simpa using this
      exact absurd this hne
    · exact h src' r' hm' hne

theorem allParsable_cons_some {src : Str} {r : List Str}
    {rest : List (Str × Option (List Str))} (hne : r ≠ []) :
    allParsable ((src, some r) :: rest) ↔
      (exceptIsOk (parse_report r) = true ∧ allParsable rest) := by
  constructor
  · intro h
    exact ⟨h src r (List.mem_cons_self _ _) hne,
      fun src' r' hm hne' => h src' r' (List.mem_cons_of_mem _ hm) hne'⟩
  · intro h src' r' hm hne'
    rcases List.mem_cons.mp hm with heq | hm'
    · have h2 : r' = r := by
        have := congrArg Prod.snd heq
        simpa using this
      rw [h2]; exact h.1
    · exact h.2 src' r' hm' hne'

/-- The dispatcher loop runs to completion exactly when every truthy
report parses: a parse failure is the one and only way an exception
escapes `parallel_teqc`. -/
theorem parallel_teqc_ok_iff (completed : List (Str × Option (List Str))) :
    exceptIsOk (parallel_teqc completed).2 = true ↔ allParsable completed := by
  induction completed with
  | nil => exact ⟨fun _ => allParsable_nil, fun _ => rfl⟩
  | cons p rest ih =>
    obtain ⟨src, res⟩ := p
    cases res with
    | none =>
      rw [parallel_teqc_cons_none, allParsable_cons_none]
      simpa [exceptIsOk_map] using ih
    | some r =>
      by_cases hr : r = []
      · subst hr
        rw [parallel_teqc_cons_empty, allParsable_cons_empty]
        simpa [exceptIsOk_map] using ih
      · cases hp : parse_report r with
        | error e =>
          rw [parallel_teqc_cons_some_err hr hp, allParsable_cons_some hr]
          simp [exceptIsOk, hp]
        | ok rec =>
          rw [parallel_teqc_cons_some_ok hr hp, allParsable_cons_some hr]
          simp only [hp, exceptIsOk, true_and]
          exact ih

/-- When every truthy report parses, the dispatcher returns a failed
list holding exactly the falsy outcomes and prints exactly the truthy
ones. -/
theorem parallel_teqc_counts :
    ∀ l : List (Str × Option (List Str)), allParsable l →
      ∃ recs fails, parallel_teqc l = (recs, .ok fails) ∧
        fails.length = failed_count l ∧
        recs.length = l.length - failed_count l := by
  intro l
  induction l with
  | nil => exact fun _ => ⟨[], [], rfl, rfl, rfl⟩
  | cons p rest ih =>
    obtain ⟨src, res⟩ := p
    intro hap
    cases res with
    | none =>
      obtain ⟨recs, fails, heq, hf, hrec⟩ := ih (allParsable_cons_none.mp hap)
      have hcnt : failed_count ((src, none) :: rest) = failed_count rest + 1 := by
        simp [failed_count, List.countP_cons, optTruthy]
      refine ⟨recs, basename src :: fails, ?_, ?_, ?_⟩
      · rw [parallel_teqc_cons_none, heq]; rfl
      · rw [hcnt, List.length_cons, hf]
      · rw [hcnt, List.length_cons, hrec]
        omega
    | some r =>
      by_cases hr : r = []
      · subst hr
        obtain ⟨recs, fails, heq, hf, hrec⟩ := ih (allParsable_cons_empty.mp hap)
        have hcnt : failed_count ((src, some []) :: rest) = failed_count rest + 1 := by
          simp [failed_count, List.countP_cons, optTruthy]
        refine ⟨recs, basename src :: fails, ?_, ?_, ?_⟩
        · rw [parallel_teqc_cons_empty, heq]; rfl
        · rw [hcnt, List.length_cons, hf]
        · rw [hcnt, List.length_cons, hrec]
          omega
      · obtain ⟨hok, hap'⟩ := (allParsable_cons_some hr).mp hap
        obtain ⟨rec, hrec0⟩ := exceptIsOk_iff.mp hok
        obtain ⟨recs, fails, heq, hf, hrecl⟩ := ih hap'
        have hle : failed_count rest ≤ rest.length := List.countP_le_length _
        refine ⟨(src, rec) :: recs, fails, ?_, ?_, ?_⟩
        · rw [parallel_teqc_cons_some_ok hr hrec0, heq]
        · have hcnt : failed_count ((src, some r) :: rest) = failed_count rest := by
            simp [failed_count, List.countP_cons, optTruthy, hr]
          rw [hcnt]; exact hf
        · have hcnt : failed_count ((src, some r) :: rest) = failed_count rest := by
            simp [failed_count, List.countP_cons, optTruthy, hr]
          rw [hcnt]
          simp only [List.length_cons, hrecl]
          omega

/-- The five fields of `QUALITYINFO` have pairwise distinct names. -/
theorem quality_fields_name_inj :
    ∀ it1 ∈ QUALITYINFO, ∀ it2 ∈ QUALITYINFO, it1.name = it2.name → it1 = it2 := by
  decide

/-- A successful lookup of a field name in the marks dictionary means
the locator of the field of that name occurs in some report line. -/
theorem flag_present_of_lookup {report : List Str} {name : String} {v : Str}
    (h : ((scanFields QUALITYINFO report 0).1).lookup name = some v)
    {item : QualityField} (hit : item ∈ QUALITYINFO) (hn : item.name = name) :
    ∃ line, line ∈ report ∧ containsSub item.flag line = true := by
  obtain ⟨item2, hit2, hn2, line, hline, hcs⟩ := lookup_scanFields_some h
  have heq : item2 = item := quality_fields_name_inj item2 hit2 item hit (by rw [hn2, hn])
  exact ⟨line, hline, heq ▸ hcs⟩

/-! ### Claim theorems -/

/-- C1, counterexample: the claim that no exception from processing
one file ever escapes `parallel_teqc` is false.  A single file whose
subprocess succeeds but whose report carries a zero slip count makes
the loop raise `ZeroDivisionError` out of `parallel_teqc`: the run
aborts with an error and returns no failed-file list. -/
theorem parse_exception_escapes_dispatcher :
    parallel_teqc [("data/f1.17o".toList, some zeroSlipReport)]
      = ([], .error .zeroDivisionError) := by
  decide

/-- C1, amended: a failed subprocess run is caught at the dispatcher
boundary and converted into a failed-file entry, and the batch never
aborts because of it; but a report that fails to parse raises an
exception that escapes `parallel_teqc`.  Precisely, the loop runs to
completion if and only if every truthy report parses. -/
theorem dispatcher_ok_iff_all_truthy_reports_parse :
    ∀ completed : List (Str × Option (List Str)),
      exceptIsOk (parallel_teqc completed).2 = true ↔
        ∀ src r, (src, some r) ∈ completed → r ≠ [] →
          exceptIsOk (parse_report r) = true :=
  fun completed => parallel_teqc_ok_iff completed

/-- Witness for C1 at a concrete batch: one failed subprocess and one
parsable report complete without an escaping exception. -/
theorem dispatcher_ok_iff_witness :
    exceptIsOk (parallel_teqc
      [("a".toList, (none : Option (List Str))), ("b".toList, some exReport)]).2 = true := by
  apply (dispatcher_ok_iff_all_truthy_reports_parse _).mpr
  intro src r hm hne
  rcases List.mem_cons.mp hm with heq | hm'
  · exact absurd (congrArg Prod.snd heq) (by simp)
  · rcases List.mem_cons.mp hm' with heq' | hm''
    · have hr : r = exReport := by
        have := congrArg Prod.snd heq'
        simpa using this
      rw [hr]; decide
    · exact absurd hm'' (List.not_mem_nil _)

/-- C2, counterexample: with N = 1 and K = 1 where the single failure
is a parse failure, the claim promises a failed-file list with one
entry and no emitted record; instead the dispatcher raises the parse
exception and returns no failed-file list at all. -/
theorem dispatcher_missing_failed_list_on_parse_error :
    parallel_teqc [("g.17o".toList, some ["x".toList])] = ([], .error .keyError) := by
  decide

/-- C2, amended: when the K failures are all subprocess failures and
every successful report parses, `parallel_teqc` returns exactly K
failed entries and prints exactly N - K records, in every completion
order of the same tasks. -/
theorem dispatcher_counts_under_any_completion_order :
    ∀ l l' : List (Str × Option (List Str)), l.Perm l' →
      (∀ src r, (src, some r) ∈ l → r ≠ [] → exceptIsOk (parse_report r) = true) →
      ∃ recs fails recs' fails',
        parallel_teqc l = (recs, .ok fails) ∧
        parallel_teqc l' = (recs', .ok fails') ∧
        fails.length = failed_count l ∧
        recs.length = l.length - failed_count l ∧
        fails'.length = failed_count l ∧
        recs'.length = l.length - failed_count l := by
  intro l l' hperm hap
  have hap' : allParsable l' := fun src r hm hne => hap src r (hperm.mem_iff.mpr hm) hne
  obtain ⟨recs, fails, h1, h2, h3⟩ := parallel_teqc_counts l hap
  obtain ⟨recs', fails', h1', h2', h3'⟩ := parallel_teqc_counts l' hap'
  have hfc : failed_count l' = failed_count l := (hperm.countP_eq _).symm
  have hlen : l'.length = l.length := hperm.length_eq.symm
  exact ⟨recs, fails, recs', fails', h1, h1', h2, h3,
    by rw [h2', hfc], by rw [h3', hfc, hlen]⟩

/-- Witness for C2 at a concrete two-task batch in both completion
orders: one subprocess failure, one parsed record. -/
theorem dispatcher_counts_witness :
    ∃ recs fails recs' fails',
      parallel_teqc [("a".toList, (none : Option (List Str))), ("b".toList, some exReport)]
        = (recs, .ok fails) ∧
      parallel_teqc [("b".toList, some exReport), ("a".toList, (none : Option (List Str)))]
        = (recs', .ok fails') ∧
      fails.length = failed_count
        [("a".toList, (none : Option (List Str))), ("b".toList, some exReport)] ∧
      recs.length = ([("a".toList, (none : Option (List Str))), ("b".toList, some exReport)]).length
        - failed_count [("a".toList, (none : Option (List Str))), ("b".toList, some exReport)] ∧
      fails'.length = failed_count
        [("a".toList, (none : Option (List Str))), ("b".toList, some exReport)] ∧
      recs'.length = ([("a".toList, (none : Option (List Str))), ("b".toList, some exReport)]).length
        - failed_count [("a".toList, (none : Option (List Str))), ("b".toList, some exReport)] := by
  apply dispatcher_counts_under_any_completion_order
  · decide
  · intro src r hm hne
    rcases List.mem_cons.mp hm with heq | hm'
    · exact absurd (congrArg Prod.snd heq) (by simp)
    · rcases List.mem_cons.mp hm' with heq' | hm''
      · have hr : r = exReport := by
          have := congrArg Prod.snd heq'
          simpa using this
        rw [hr]; decide
      · exact absurd hm'' (List.not_mem_nil _)

/-- C3: a report whose summary line carries a slip count of zero makes
`parse_report` produce an error value (the raised `ZeroDivisionError`
at the boundary of the function), never a record with an infinite
rate; and on a successful parse with positive slip count `n` the
returned cycle-slip rate is exactly `1000 / n`. -/
theorem parse_report_zero_slip_error_and_csr :
    (∀ (report : List Str) (ll : Str), report.getLast? = some ll →
       pyFloat (pyDrop ll 75) = some 0 →
       exceptIsErr (parse_report report) = true) ∧
    (∀ (report : List Str) (rec : QRecord) (ll : Str) (n : ℚ),
       parse_report report = .ok rec → report.getLast? = some ll →
       pyFloat (pyDrop ll 75) = some n → 0 < n →
       rec.CSR = 1000 / n) := by
  constructor
  · intro report ll hlast hzero
    cases hp : parse_report report with
    | error e => rfl
    | ok rec =>
      exfalso
      obtain ⟨s1t, s2t, stt, ent, let_, llv, sn1, sn2, da, mp1, mp2, olps,
        c1, c2, c3, c4, c5, c6, c7, c8, c9, c10, c11, c12, c13, c14⟩ :=
        parse_report_ok_inv hp
      have hll : llv = ll := by
        rw [c9] at hlast
        exact Option.some.inj hlast
      rw [hll, hzero] at c12
      exact c13 (Option.some.inj c12).symm
  · intro report rec ll n hp hlast hn hpos
    obtain ⟨s1t, s2t, stt, ent, let_, llv, sn1, sn2, da, mp1, mp2, olps,
      c1, c2, c3, c4, c5, c6, c7, c8, c9, c10, c11, c12, c13, c14⟩ :=
      parse_report_ok_inv hp
    have hll : llv = ll := by
      rw [c9] at hlast
      exact Option.some.inj hlast
    rw [hll, hn] at c12
    have holps : olps = n := (Option.some.inj c12).symm
    rw [c14, holps]

/-- Witness for C3: the zero-slip report errs, and the example report
with slip count 3972 yields rate 1000 / 3972. -/
theorem parse_report_zero_slip_witness :
    exceptIsErr (parse_report zeroSlipReport) = true ∧
    (QRecord.mk "2017-08-10".toList "00:00:00.000".toList "23:59:30.000".toList
      "23.99 hour(s)".toList (4695/100) (4221/100) (43/100) (42/100) (1000/3972)).CSR
      = 1000 / (3972 : ℚ) :=
  ⟨parse_report_zero_slip_error_and_csr.1 zeroSlipReport
      "SUM 17  8 10 00:00 17  8 10 23:59 24.00  30     -   47669  -   0.43  0.42   0000".toList
      (by decide) (by decide),
   parse_report_zero_slip_error_and_csr.2 exReport
      (QRecord.mk "2017-08-10".toList "00:00:00.000".toList "23:59:30.000".toList
        "23.99 hour(s)".toList (4695/100) (4221/100) (43/100) (42/100) (1000/3972))
      "SUM 17  8 10 00:00 17  8 10 23:59 24.00  30     -   47669  -   0.43  0.42   3972".toList
      3972 (by decide) (by decide) (by decide) (by decide)⟩

/-- C4, counterexample: when the tool binary cannot be located the
shell reports exit status 127, and `quality_check` returns exactly the
same `None` as for an ordinary failing check (status 1): the two are
indistinguishable, and the batch completes normally with the file
recorded in the failed-file list instead of aborting. -/
theorem tool_missing_indistinguishable_cex :
    quality_check 127 "sh: teqc: command not found".toList
        = quality_check 1 "teqc: some other error".toList ∧
    parallel_teqc [("data/f1.17o".toList,
        quality_check 127 "sh: teqc: command not found".toList)]
      = ([], .ok ["f1.17o".toList]) := by
  decide

/-- C4, amended: a missing tool binary surfaces as shell status 127,
which `quality_check` maps to `None` exactly like any per-file check
failure; the dispatcher appends the file to the failed list and the
batch continues — no distinguishable fatal path exists in the code. -/
theorem tool_missing_treated_as_per_file_failure :
    ∀ (out out2 f : Str),
      quality_check 127 out = none ∧
      quality_check 127 out = quality_check 1 out2 ∧
      parallel_teqc [(f, quality_check 127 out)] = ([], .ok [basename f]) := by
  intro out out2 f
  exact ⟨rfl, rfl, rfl⟩

/-- C5 (code bug): the source tests `status > 0`, so a negative exit
status — a subprocess killed by a signal, which
`subprocess.getstatusoutput` reports as a negative number — does not
return the absence marker `None`: the captured output is returned as a
report, against the claim and against the comment of the source that
a nonzero exit status means error. -/
theorem quality_check_negative_status_returns_report :
    quality_check (-15) "a\nb".toList = some ["a".toList, "b".toList] ∧
    quality_check (-15) "a\nb".toList ≠ none := by
  decide

/-- C6, counterexample: the claim that the search for the next locator
resumes from the line after the matched line is false.  On a report
whose SN1 and SN2 locators sit on one and the same line, the code
finds SN2 on the very line that matched SN1, while a scanner resuming
after the matched line finds no SN2 at all. -/
theorem scan_resumes_at_matched_line_cex :
    scanFields QUALITYINFO exC6Report 0 ≠ scanSpecExcl QUALITYINFO exC6Report 0 ∧
    ((scanFields QUALITYINFO exC6Report 0).1).lookup "SN2" = some "46.95".toList ∧
    ((scanSpecExcl QUALITYINFO exC6Report 0).1).lookup "SN2" = none := by
  decide

/-- C6, amended: the locators are matched in fixed declaration order,
each consumed at most once with first-match-wins semantics, and after
a match at line index `i` the next search resumes from line `i`
itself (inclusive), never from an earlier line: the code scanner
equals the inclusive-resume specification scanner and its cursor never
decreases. -/
theorem scan_fields_inclusive_resume_spec :
    ∀ (report : List Str) (c : Nat),
      scanFields QUALITYINFO report c = scanSpecIncl QUALITYINFO report c ∧
      c ≤ (scanFields QUALITYINFO report c).2 :=
  fun report c => ⟨scanFields_eq_scanSpecIncl QUALITYINFO report c,
    scanFields_cursor_ge QUALITYINFO report c⟩

/-- C7: an empty report, a report missing any one of the five
locators, and a report whose summary line is shorter than the column
ranges require (fewer than 76 characters, so that the open-ended
slip-count field is empty) all make `parse_report` yield an error
value: no partial or default-filled record is ever produced, and no
silently truncated read reaches the output. -/
theorem parse_report_malformed_yields_error :
    ∀ report : List Str,
      (report = [] ∨
       (∃ item, item ∈ QUALITYINFO ∧
          ∀ line, line ∈ report → containsSub item.flag line = false) ∨
       (∃ ll, report.getLast? = some ll ∧ ll.length < 76)) →
      exceptIsErr (parse_report report) = true := by
  intro report hcase
  cases hp : parse_report report with
  | error e => rfl
  | ok rec =>
    exfalso
    obtain ⟨s1t, s2t, stt, ent, let_, llv, sn1, sn2, da, mp1, mp2, olps,
      c1, c2, c3, c4, c5, c6, c7, c8, c9, c10, c11, c12, c13, c14⟩ :=
      parse_report_ok_inv hp
    rcases hcase with hnil | hmiss | hshort
    · rw [hnil] at c9
      simp at c9
    · obtain ⟨item, hitem, hnone⟩ := hmiss
      have hitem5 : item = ⟨"start", "Time of start of window :".toList, (25, 51)⟩ ∨
          item = ⟨"end", "Time of  end  of window :".toList, (37, 51)⟩ ∨
          item = ⟨"length", "Time line window length :".toList, (26, 42)⟩ ∨
          item = ⟨"SN1", "Mean S1                 :".toList, (26, 31)⟩ ∨
          item = ⟨"SN2", "Mean S2                 :".toList, (26, 31)⟩ := by
        simpa [QUALITYINFO, List.mem_cons] using hitem
      have hfind : ∃ line, line ∈ report ∧ containsSub item.flag line = true := by
        rcases hitem5 with h5 | h5 | h5 | h5 | h5 <;> subst h5
        · exact flag_present_of_lookup c5 (by decide) rfl
        · exact flag_present_of_lookup c7 (by decide) rfl
        · exact flag_present_of_lookup c8 (by decide) rfl
        · exact flag_present_of_lookup c1 (by decide) rfl
        · exact flag_present_of_lookup c3 (by decide) rfl
      obtain ⟨line, hline, hcs⟩ := hfind
      rw [hnone line hline] at hcs
      exact Bool.false_ne_true hcs
    · obtain ⟨ll, hlast, hlen⟩ := hshort
      have hll : llv = ll := by
        rw [c9] at hlast
        exact Option.some.inj hlast
      have hdrop : pyDrop ll 75 = [] := List.drop_eq_nil_of_le (by omega)
      rw [hll, hdrop, pyFloat_nil] at c12
      exact Option.noConfusion c12

/-- Witness for C7 at the empty report. -/
theorem parse_report_malformed_witness :
    exceptIsErr (parse_report ([] : List Str)) = true :=
  parse_report_malformed_yields_error [] (Or.inl rfl)

/-- C8: on the example report of the source docstring, `parse_report`
returns exactly the tuple of the spec, with the numeric strings read
as exact decimals and CSR = 1000 / 3972. -/
theorem parse_report_example :
    parse_report exReport =
      .ok ⟨"2017-08-10".toList, "00:00:00.000".toList, "23:59:30.000".toList,
           "23.99 hour(s)".toList, 4695/100, 4221/100, 43/100, 42/100, 1000/3972⟩ := by
  decide

/-- C9: the worker-pool limit the dispatcher configures is
`MAX_THREADING cpu = max 6 cpu`, and in every reachable state of a
pool scheduled with that limit the number of concurrently running
subprocess tasks never exceeds it, whatever the number of submitted
tasks. -/
theorem pool_concurrency_bound :
    ∀ (cpu n : Nat) (s : PoolState),
      PoolReach (MAX_THREADING cpu) n s →
      s.running ≤ MAX_THREADING cpu ∧ MAX_THREADING cpu = max 6 cpu ∧
        6 ≤ MAX_THREADING cpu := by
  intro cpu n s h
  refine ⟨?_, rfl, le_max_left _ _⟩
  induction h with
  | init => exact Nat.zero_le _
  | step hr hstep ih =>
    cases hstep with
    | start p r d hlt hp => exact hlt
    | finish p r d hr0 =>
      simp only at ih ⊢
      omega

/-- Witness for C9: after starting one of two submitted tasks with
four processing units, one task runs, within the limit. -/
theorem pool_concurrency_bound_witness :
    PoolState.running ⟨1, 1, 0⟩ ≤ MAX_THREADING 4 ∧ MAX_THREADING 4 = max 6 4 ∧
      6 ≤ MAX_THREADING 4 :=
  pool_concurrency_bound 4 2 ⟨1, 1, 0⟩
    (PoolReach.step PoolReach.init (PoolStep.start 2 0 0 (by decide) (by decide)))

/-- C10: the report of a zero-status subprocess is the output split on
newlines, which is never the empty list; hence the truthiness test of
the dispatcher classifies an outcome as failed exactly when
`quality_check` returned `None`, and the last-line access of
`parse_report` never indexes an empty list on any report produced by
`quality_check`. -/
theorem quality_check_report_nonempty_truthiness :
    ∀ (status : ℤ) (out : Str),
      (∀ r, quality_check status out = some r →
         r ≠ [] ∧ optTruthy (some r) = true ∧ parse_report r ≠ .error .indexError) ∧
      (optTruthy (quality_check status out) = false ↔
         quality_check status out = none) := by
  intro status out
  constructor
  · intro r hr
    have hne : r ≠ [] := by
      unfold quality_check at hr
      split at hr
      · exact absurd hr (by simp)
      · have hr2 : pySplitOn '\n' out = r := Option.some.inj hr
        rw [← hr2]
        exact pySplitOn_ne_nil '\n' out
    refine ⟨hne, ?_, parse_report_ne_indexError hne⟩
    cases r with
    | nil => exact absurd rfl hne
    | cons a t => rfl
  · unfold quality_check
    split
    · simp [optTruthy]
    · constructor
      · intro hf
        exfalso
        cases hsp : pySplitOn '\n' out with
        | nil => exact pySplitOn_ne_nil '\n' out hsp
        | cons a t =>
          rw [hsp] at hf
          simp [optTruthy] at hf
      · intro h
        exact absurd h (by simp)

/-- Witness for C10 at a successful concrete run. -/
theorem quality_check_report_witness :
    (["a".toList] ≠ ([] : List Str) ∧ optTruthy (some ["a".toList]) = true ∧
       parse_report ["a".toList] ≠ .error .indexError) ∧
    (optTruthy (quality_check 0 "a".toList) = false ↔
       quality_check 0 "a".toList = none) :=
  ⟨(quality_check_report_nonempty_truthiness 0 "a".toList).1 ["a".toList] (by decide),
   (quality_check_report_nonempty_truthiness 0 "a".toList).2⟩

end QualityCheck
